import Mathlib

/-
  Verification development for the TikTok trending-hashtags scraper
  (tiktok_scraper_simple.py).

  The script is sequential glue: a structured-API fetcher, an HTML-heuristics
  fetcher, a static fallback table, and an orchestrator that merges the three
  tiers into one category-to-hashtag-list mapping.  We embed the pure data flow
  shallowly:

  * Python dicts (string-keyed, insertion-ordered) become association lists
    `List (String × α)` with dict-style lookup and in-place update.
  * The network is external: each fetcher takes an abstract result describing
    what the HTTP layer produced (transport failure, status code, parsed body),
    and the orchestrator takes the two fetch outcomes as oracles.
  * `print` diagnostics and `time.sleep` are side effects with no influence on
    the returned data and are not modelled.
-/

namespace TiktokScraper

/-- Dict lookup on an association list: first binding for the key, as in a
Python dict (whose keys are unique). -/
def dictGet {α : Type} : List (String × α) → String → Option α
  | [], _ => none
  | p :: rest, k => if p.1 = k then some p.2 else dictGet rest k

/-- Dict assignment `d[k] = v`: replaces the first binding of `k` in place,
or appends a new binding at the end, as Python dict assignment does. -/
def dictSet {α : Type} : List (String × α) → String → α → List (String × α)
  | [], k, v => [(k, v)]
  | p :: rest, k, v => if p.1 = k then (k, v) :: rest else p :: dictSet rest k v

/-- Python's `s.startswith(p)` on strings. -/
def pyStartsWith (s p : String) : Bool :=
  s.data.take p.data.length == p.data

/-- Python's `s.lower()`, as character-wise case folding (the same fold Lean's
own `String.toLower` performs). -/
def pyLower (s : String) : String :=
  String.mk (s.data.map Char.toLower)

/-- Configuration constant `COUNTRY_CODE = ""` (empty = all regions). -/
def COUNTRY_CODE : String := ""

/-- Configuration constant `PERIOD = 7`. -/
def PERIOD : Nat := 7

/-- The `INDUSTRY_IDS` table, in source (insertion) order. -/
def INDUSTRY_IDS : List (String × String) :=
  [("All",                      ""),
   ("Apparel & Accessories",    "2"),
   ("Beauty & Personal Care",   "3"),
   ("Education",                "6"),
   ("Financial Services",       "9"),
   ("Food & Beverage",          "15"),
   ("Games",                    "18"),
   ("Health",                   "36"),
   ("Home Improvement",         "21"),
   ("News & Entertainment",     "24"),
   ("Pets",                     "28"),
   ("Sports & Outdoor",         "31"),
   ("Tech & Electronics",       "33"),
   ("Travel",                   "35"),
   ("Vehicle & Transportation", "37")]

/-- The `WEBSITE_KEY_MAP` table mapping upstream industry names to website
category keys, in source order. -/
def WEBSITE_KEY_MAP : List (String × String) :=
  [("All",                      "general"),
   ("Beauty & Personal Care",   "lifestyle"),
   ("Food & Beverage",          "food"),
   ("Health",                   "fitness"),
   ("Apparel & Accessories",    "fashion"),
   ("Tech & Electronics",       "tech"),
   ("Games",                    "tech"),
   ("Travel",                   "travel"),
   ("Financial Services",       "business"),
   ("News & Entertainment",     "entertainment"),
   ("Sports & Outdoor",         "sports"),
   ("Education",                "education"),
   ("Home Improvement",         "home"),
   ("Pets",                     "pets"),
   ("Vehicle & Transportation", "auto")]

/-- Outcome of the HTTP layer for one `fetch_via_api` call.  `fail` covers a
raised exception (network/transport error, or a body `resp.json()` cannot
parse); `ok` carries the HTTP status, the embedded `code` field (absent when
the key is missing), and the `hashtag_name` strings of `data.list` (an item
with no `hashtag_name` key yields `""`, matching `item.get("hashtag_name", "")`). -/
inductive ApiResult : Type
  | fail : ApiResult
  | ok (status : Nat) (code : Option Int) (items : List String) : ApiResult

/-- Normalization of one raw `hashtag_name` inside `fetch_via_api`'s loop:
strip whitespace, drop empties, ensure a leading `#`. -/
def normTag (raw : String) : Option String :=
  let name := raw.trim
  if name = "" then none
  else if pyStartsWith name "#" then some name
  else some ("#" ++ name)

/-- Method 1, `fetch_via_api`: returns `none` on any failure path —
exception, non-200 status, non-zero (or missing) embedded `code`, or empty
item list — otherwise the normalized hashtag strings. -/
def fetch_via_api (r : ApiResult) : Option (List String) :=
  match r with
  | .fail => none
  | .ok status code items =>
      if status ≠ 200 then none
      else if code ≠ some 0 then none
      else if items.isEmpty then none
      else some (items.filterMap normTag)

/-- The parsed page content `fetch_via_html` works on, as produced by the
external HTML parser: the stripped text of every `a`/`div`/`span`/`h3`/`p`
element in document order, every link `href` value, and every script body
(`script.string or ""`). -/
structure Page : Type where
  texts : List String
  hrefs : List String
  scripts : List String

/-- Outcome of the HTTP layer for the `fetch_via_html` page request. -/
inductive HtmlResult : Type
  | fail : HtmlResult
  | ok (status : Nat) (page : Page) : HtmlResult

/-- The shared case-insensitive dedup-append used by all three HTML
heuristics and by the orchestrator's bucket merge:
`if tag.lower() not in [h.lower() for h in hashtags]: hashtags.append(tag)`. -/
def addTag (hashtags : List String) (tag : String) : List String :=
  if hashtags.any (fun h => pyLower h == pyLower tag) then hashtags
  else hashtags ++ [tag]

/-- Heuristic A: element texts looking like `# name` or `#name`, with the
`"# "` collapsed, trimmed, and kept only when still a `#`-leading token of
length over one with no internal space. -/
def stratA (texts : List String) (hashtags : List String) : List String :=
  texts.foldl
    (fun hs text =>
      if pyStartsWith text "# " || pyStartsWith text "#" then
        let tag := (text.replace "# " "#").trim
        if pyStartsWith tag "#" && tag.length > 1 && !(tag.data.any (fun c => c = ' '))
        then addTag hs tag
        else hs
      else hs)
    hashtags

/-- Maximal run of characters other than `/` and `?`, the capture group of
the pattern `[^/?]+`. -/
def takeSeg : List Char → List Char
  | [] => []
  | c :: cs => if c = '/' ∨ c = '?' then [] else c :: takeSeg cs

/-- Leftmost match of the pattern `/hashtag/([^/?]+)` in a character list:
the literal `/hashtag/` followed by at least one character that is neither
`/` nor `?`; the capture is the maximal such run. -/
def hashtagSeg : List Char → Option (List Char)
  | [] => none
  | c :: cs =>
      if (c :: cs).take 9 = "/hashtag/".data then
        match (c :: cs).drop 9 with
        | d :: rest =>
            if d ≠ '/' ∧ d ≠ '?' then some (takeSeg (d :: rest))
            else hashtagSeg cs
        | [] => hashtagSeg cs
      else hashtagSeg cs

/-- Heuristic B: hashtag names embedded in link targets after `/hashtag/`. -/
def stratB (hrefs : List String) (hashtags : List String) : List String :=
  hrefs.foldl
    (fun hs href =>
      match hashtagSeg href.data with
      | some name => addTag hs ("#" ++ String.mk name)
      | none => hs)
    hashtags

/-- ASCII approximation of the regex class `\s` used by
`"hashtag_name"\s*:\s*"([^"]+)"`. -/
def isSpaceChar (c : Char) : Bool :=
  c = ' ' ∨ c = '\t' ∨ c = '\n' ∨ c = '\r' ∨ c = '\x0b' ∨ c = '\x0c'

/-- Attempt to match `"hashtag_name"\s*:\s*"([^"]+)"` at the head of the
input; on success returns the (nonempty) capture and the remainder after the
closing quote. -/
def matchHN (cs : List Char) : Option (List Char × List Char) :=
  if cs.take 14 = "\"hashtag_name\"".data then
    match (cs.drop 14).dropWhile isSpaceChar with
    | ':' :: r2 =>
        match r2.dropWhile isSpaceChar with
        | '"' :: r4 =>
            let name := r4.takeWhile (fun c => c ≠ '"')
            match r4.drop name.length with
            | '"' :: rest => if name.isEmpty then none else some (name, rest)
            | _ => none
        | _ => none
    | _ => none
  else none

/-- Fuelled scan implementing `re.finditer` for the script pattern: find the
leftmost match, emit its capture, continue after it.  The fuel equals the
input length, which bounds the number of scan steps since every step consumes
at least one character. -/
def scanScriptAux : Nat → List Char → List (List Char)
  | 0, _ => []
  | _ + 1, [] => []
  | fuel + 1, c :: cs =>
      match matchHN (c :: cs) with
      | some (name, rest) => name :: scanScriptAux fuel rest
      | none => scanScriptAux fuel cs

/-- All captures of `"hashtag_name"\s*:\s*"([^"]+)"` in a script body, in
order. -/
def scanScript (cs : List Char) : List (List Char) :=
  scanScriptAux cs.length cs

/-- Heuristic C: hashtag names in inline JSON blobs inside script tags. -/
def stratC (scripts : List String) (hashtags : List String) : List String :=
  scripts.foldl
    (fun hs sc =>
      (scanScript sc.data).foldl
        (fun hs2 name => addTag hs2 ("#" ++ String.mk name))
        hs)
    hashtags

/-- Method 2, `fetch_via_html`: on a 200 response, run heuristic A, then B
and C each only while fewer than 5 tags have accumulated; return `none` when
nothing was extracted (or on a failed request / non-200 status). -/
def fetch_via_html (r : HtmlResult) : Option (List String) :=
  match r with
  | .fail => none
  | .ok status p =>
      if status ≠ 200 then none
      else
        let h1 := stratA p.texts []
        let h2 := if h1.length < 5 then stratB p.hrefs h1 else h1
        let h3 := if h2.length < 5 then stratC p.scripts h2 else h2
        if h3.isEmpty then none else some h3

/-- Method 3, `get_fallback_data`: the hardcoded fallback table, verbatim and in source
order. -/
def get_fallback_data : List (String × List String) :=
  [("general",
    ["#fyp", "#foryou", "#viral", "#trending", "#foryoupage",
     "#tiktok", "#xyzbca", "#tiktokviral", "#viralvideo", "#fypシ"]),
   ("fitness",
    ["#fitness", "#workout", "#gym", "#fitfam", "#healthylifestyle",
     "#weightloss", "#fitnessmotivation", "#health", "#wellness",
     "#fittok", "#gymtok", "#motivation"]),
   ("food",
    ["#food", "#foodie", "#cooking", "#recipe", "#foodtok",
     "#baking", "#chef", "#foodporn", "#homecooking", "#easyrecipe",
     "#cookingtiktok", "#yummy"]),
   ("lifestyle",
    ["#beauty", "#makeup", "#skincare", "#beautytips", "#makeuptutorial",
     "#beautytok", "#skincareroutine", "#grwm", "#beautyhacks",
     "#skintok", "#makeupartist"]),
   ("fashion",
    ["#fashion", "#style", "#ootd", "#outfit", "#streetstyle",
     "#fashiontok", "#fashioninspo", "#outfitinspo", "#styleinspo",
     "#fashiontrends", "#fashionblogger"]),
   ("tech",
    ["#tech", "#technology", "#gaming", "#gamer", "#ai",
     "#techtok", "#gamedev", "#pc", "#gamingsetup", "#techreview",
     "#esports", "#twitch"]),
   ("travel",
    ["#travel", "#traveltok", "#adventure", "#wanderlust", "#vacation",
     "#explore", "#traveling", "#travelgram", "#travelphotography",
     "#travelblogger", "#travelvlog"]),
   ("business",
    ["#business", "#entrepreneur", "#marketing", "#money", "#investing",
     "#financetok", "#businesstips", "#hustle", "#stocks",
     "#entrepreneurship", "#sidehustle", "#moneytok"])]

/-- Case-insensitive merge of `tags` into an existing bucket: each new tag is
appended unless its lowercase form is already present (the Python code keeps a
set of lowercased entries whose contents always equal the lowercased bucket,
so membership in the set is membership in the accumulated bucket). -/
def mergeTags (existing tags : List String) : List String :=
  tags.foldl addTag existing

/-- One iteration of the orchestrator's API loop after a successful, nonempty
fetch for `web_key`: merge into the existing bucket, or store the list
verbatim when the bucket is absent. -/
def mergeIntoBucket (d : List (String × List String)) (web_key : String)
    (tags : List String) : List (String × List String) :=
  match dictGet d web_key with
  | some existing => dictSet d web_key (mergeTags existing tags)
  | none => d ++ [(web_key, tags)]

/-- Body of the orchestrator's per-industry API loop: skip industries with no
(or a falsy) website key, skip failed or empty fetches (`if tags:`), otherwise
merge and count the success. -/
def step1go (api : String → Option (List String))
    (acc : List (String × List String) × Nat) (p : String × String) :
    List (String × List String) × Nat :=
  match dictGet WEBSITE_KEY_MAP p.1 with
  | none => acc
  | some web_key =>
      if web_key = "" then acc
      else
        match api p.1 with
        | none => acc
        | some tags =>
            if tags.isEmpty then acc
            else (mergeIntoBucket acc.1 web_key tags, acc.2 + 1)

/-- Tier 1 of `scrape_all_hashtags`: the API loop over all industries, given
the per-industry fetch outcome `api`.  Returns the accumulated website data
and `api_success_count`. -/
def step1 (api : String → Option (List String)) :
    List (String × List String) × Nat :=
  INDUSTRY_IDS.foldl (step1go api) ([], 0)

/-- The tier-2 guard `"general" not in website_data or
len(website_data.get("general", [])) < 5`. -/
def generalThin (d : List (String × List String)) : Bool :=
  match dictGet d "general" with
  | none => true
  | some g => g.length < 5

/-- The source label after tier 1: `"api"` when at least one industry fetch
succeeded, otherwise still the initial `"unknown"`. -/
def apiSource (api : String → Option (List String)) : String :=
  if (step1 api).2 > 0 then "api" else "unknown"

/-- Tiers 1 and 2 of `scrape_all_hashtags`: the API loop, the source label it
induces, and the conditional HTML replacement of the `general` bucket (`html`
is the `fetch_via_html` outcome, checked for truthiness like `if html_tags:`). -/
def tiers12 (api : String → Option (List String))
    (html : Option (List String)) : List (String × List String) × String :=
  if generalThin (step1 api).1 then
    match html with
    | some htags =>
        if htags.isEmpty then ((step1 api).1, apiSource api)
        else (dictSet (step1 api).1 "general" htags,
              if apiSource api = "unknown" then "html" else "api+html")
    | none => ((step1 api).1, apiSource api)
  else ((step1 api).1, apiSource api)

/-- One iteration of the fallback fill loop: replace the bucket when it is
missing or has fewer than 3 entries. -/
def fillStep (acc : List (String × List String)) (p : String × List String) :
    List (String × List String) :=
  match dictGet acc p.1 with
  | none => dictSet acc p.1 p.2
  | some v => if v.length < 3 then dictSet acc p.1 p.2 else acc

/-- The per-category fallback fill: iterate the fallback table's entries over
the current data. -/
def fillFromFallback (d : List (String × List String)) :
    List (String × List String) :=
  get_fallback_data.foldl fillStep d

/-- The orchestrator `scrape_all_hashtags`, as a function of the two fetch outcomes: run tiers
1 and 2, then either discard everything for the fallback table (empty output,
or every bucket under 3 entries) or fill thin categories per-category. -/
def scrape_all_hashtags (api : String → Option (List String))
    (html : Option (List String)) : List (String × List String) × String :=
  if (tiers12 api html).1.isEmpty
      || (tiers12 api html).1.all (fun p => p.2.length < 3) then
    (get_fallback_data, "fallback")
  else
    (fillFromFallback (tiers12 api html).1, (tiers12 api html).2)

/-- JSON values as far as the writer's output document needs: strings,
numbers, arrays of strings (category buckets), and objects. -/
inductive JVal : Type
  | s (v : String) : JVal
  | n (v : Nat) : JVal
  | arr (vs : List String) : JVal
  | obj (fields : List (String × JVal)) : JVal

/-- Whether a JSON value is an object. -/
def JVal.isObj : JVal → Bool
  | .obj _ => true
  | _ => false

/-- The `_meta` object built by `save_to_json`; `now` is the formatted
timestamp string produced by the external clock. -/
def metaObj (source now : String) : JVal :=
  .obj [("scraped_at", .s now),
        ("source", .s source),
        ("country", .s (if COUNTRY_CODE = "" then "all" else COUNTRY_CODE)),
        ("period_days", .n PERIOD)]

/-- The document `save_to_json` serializes: a dict starting with `_meta`,
then one assignment `output[key] = tags` per category in input order. -/
def save_to_json (website_data : List (String × List String))
    (source now : String) : List (String × JVal) :=
  website_data.foldl (fun out p => dictSet out p.1 (JVal.arr p.2))
    [("_meta", metaObj source now)]

/-- Whether the bucket for `k` exists and meets the minimum threshold of 3
entries. -/
def bucketOK (d : List (String × List String)) (k : String) : Bool :=
  match dictGet d k with
  | none => false
  | some w => 3 ≤ w.length

/-- Whether the bucket for `k` is missing or below the minimum threshold of 3
entries — the fill loop's replacement condition. -/
def bucketThin (d : List (String × List String)) (k : String) : Bool :=
  match dictGet d k with
  | none => true
  | some v => v.length < 3

/-! Helper lemmas about the dict operations. -/

theorem dictGet_dictSet_self {α : Type} (d : List (String × α)) (k : String)
    (v : α) : dictGet (dictSet d k v) k = some v := by
  induction d with
  | nil => simp [dictGet, dictSet]
  | cons p rest ih =>
      by_cases h : p.1 = k
      · simp [dictSet, h, dictGet]
      · simp [dictSet, h, dictGet, ih]

theorem dictGet_dictSet_ne {α : Type} (d : List (String × α)) (k k' : String)
    (v : α) (h : k' ≠ k) : dictGet (dictSet d k' v) k = dictGet d k := by
  induction d with
  | nil => simp [dictGet, dictSet, h]
  | cons p rest ih =>
      by_cases hp : p.1 = k'
      · simp [dictSet, hp, dictGet, h, ih]
      · simp [dictSet, hp, dictGet, h, ih]

theorem dictSet_of_not_mem {α : Type} (d : List (String × α)) (k : String)
    (v : α) (h : k ∉ d.map Prod.fst) : dictSet d k v = d ++ [(k, v)] := by
  induction d with
  | nil => rfl
  | cons p rest ih =>
      simp only [List.map_cons, List.mem_cons] at h
      push_neg at h
      have hne : ¬ p.1 = k := fun he => h.1 he.symm
      simp [dictSet, hne, ih h.2]

theorem mem_of_dictGet {α : Type} (d : List (String × α)) (k : String) (v : α)
    (h : dictGet d k = some v) : (k, v) ∈ d := by
  induction d with
  | nil => simp [dictGet] at h
  | cons p rest ih =>
      cases p with
      | mk a b =>
          by_cases hp : a = k
          · subst hp
            simp [dictGet] at h
            subst h
            exact List.mem_cons_self _ _
          · simp [dictGet, hp] at h
            exact List.mem_cons_of_mem _ (ih h)

/-! Helper lemmas about tier 1: the bucket map is empty whenever the success
count is zero, since the two grow in lockstep. -/

theorem step1go_preserves (api : String → Option (List String))
    (acc : List (String × List String) × Nat) (p : String × String)
    (h : acc.2 = 0 → acc.1 = []) :
    (step1go api acc p).2 = 0 → (step1go api acc p).1 = [] := by
  cases hw : dictGet WEBSITE_KEY_MAP p.1 with
  | none => simpa [step1go, hw] using h
  | some wk =>
      by_cases hwk : wk = ""
      · simpa [step1go, hw, hwk] using h
      · cases ha : api p.1 with
        | none => simpa [step1go, hw, hwk, ha] using h
        | some tags =>
            by_cases ht : tags.isEmpty
            · simpa [step1go, hw, hwk, ha, ht] using h
            · intro h0
              simp [step1go, hw, hwk, ha, ht] at h0

theorem foldl_step1go_preserves (api : String → Option (List String))
    (l : List (String × String)) :
    ∀ acc : List (String × List String) × Nat, (acc.2 = 0 → acc.1 = []) →
      (l.foldl (step1go api) acc).2 = 0 → (l.foldl (step1go api) acc).1 = [] := by
  induction l with
  | nil => intro acc h; exact h
  | cons p rest ih =>
      intro acc h
      exact ih (step1go api acc p) (step1go_preserves api acc p h)

theorem step1_nil_of_count_zero (api : String → Option (List String))
    (h : (step1 api).2 = 0) : (step1 api).1 = [] :=
  foldl_step1go_preserves api INDUSTRY_IDS ([], 0) (fun _ => rfl) h

theorem apiSource_cases (api : String → Option (List String)) :
    apiSource api = "api" ∨ (apiSource api = "unknown" ∧ (step1 api).1 = []) := by
  by_cases hc : (step1 api).2 > 0
  · left; simp [apiSource, hc]
  · right
    refine ⟨by simp [apiSource, hc], step1_nil_of_count_zero api (by omega)⟩

/-- The label produced by tiers 1 and 2 is `api`, `html` or `api+html`, or
it is still `unknown` and then the bucket map is necessarily empty. -/
theorem tiers12_label (api : String → Option (List String))
    (html : Option (List String)) :
    (tiers12 api html).2 = "api" ∨ (tiers12 api html).2 = "html" ∨
    (tiers12 api html).2 = "api+html" ∨
    ((tiers12 api html).2 = "unknown" ∧ (tiers12 api html).1 = []) := by
  unfold tiers12
  by_cases hg : generalThin (step1 api).1
  · cases html with
    | none =>
        rcases apiSource_cases api with h | h
        · simp [hg, h]
        · simp [hg, h.1, h.2]
    | some htags =>
        by_cases he : htags.isEmpty
        · rcases apiSource_cases api with h | h
          · simp [hg, he, h]
          · simp [hg, he, h.1, h.2]
        · rcases apiSource_cases api with h | h
          · simp [hg, he, h]
          · simp [hg, he, h.1]
  · rcases apiSource_cases api with h | h
    · simp [hg, h]
    · exfalso
      apply hg
      rw [h.2]
      decide

/-! Helper lemmas about the fallback fill loop. -/

theorem dictGet_fillStep_ne (acc : List (String × List String))
    (p : String × List String) (k : String) (h : p.1 ≠ k) :
    dictGet (fillStep acc p) k = dictGet acc k := by
  unfold fillStep
  cases hg : dictGet acc p.1 with
  | none => exact dictGet_dictSet_ne acc k p.1 p.2 h
  | some v =>
      by_cases hl : v.length < 3
      · simp only [hl, if_true]
        exact dictGet_dictSet_ne acc k p.1 p.2 h
      · simp [hl]

theorem bucketOK_fillStep_self (acc : List (String × List String))
    (p : String × List String) (h : 3 ≤ p.2.length) :
    bucketOK (fillStep acc p) p.1 = true := by
  unfold fillStep
  cases hg : dictGet acc p.1 with
  | none =>
      simp [bucketOK, dictGet_dictSet_self, h]
  | some v =>
      by_cases hl : v.length < 3
      · simp [hl, bucketOK, dictGet_dictSet_self, h]
      · simp [hl, bucketOK, hg]
        omega

theorem bucketOK_fillStep (acc : List (String × List String))
    (p : String × List String) (k : String) (hp : 3 ≤ p.2.length)
    (h : bucketOK acc k = true) : bucketOK (fillStep acc p) k = true := by
  by_cases hk : p.1 = k
  · rw [← hk]
    exact bucketOK_fillStep_self acc p hp
  · unfold bucketOK at h ⊢
    rw [dictGet_fillStep_ne acc p k hk]
    exact h

theorem bucketOK_foldl_fillStep (l : List (String × List String)) :
    ∀ acc k, (∀ p ∈ l, 3 ≤ p.2.length) → bucketOK acc k = true →
      bucketOK (l.foldl fillStep acc) k = true := by
  induction l with
  | nil => intro acc k _ h; exact h
  | cons p rest ih =>
      intro acc k hall h
      exact ih (fillStep acc p) k (fun q hq => hall q (List.mem_cons_of_mem _ hq))
        (bucketOK_fillStep acc p k (hall p (List.mem_cons_self _ _)) h)

theorem bucketOK_foldl_of_mem (l : List (String × List String)) :
    ∀ acc k v, (k, v) ∈ l → (∀ p ∈ l, 3 ≤ p.2.length) →
      bucketOK (l.foldl fillStep acc) k = true := by
  induction l with
  | nil => intro acc k v h; simp at h
  | cons p rest ih =>
      intro acc k v hmem hall
      rcases List.mem_cons.mp hmem with heq | htail
      · subst heq
        have h1 : bucketOK (fillStep acc (k, v)) k = true :=
          bucketOK_fillStep_self acc (k, v) (hall (k, v) (List.mem_cons_self _ _))
        exact bucketOK_foldl_fillStep rest (fillStep acc (k, v)) k
          (fun q hq => hall q (List.mem_cons_of_mem _ hq)) h1
      · exact ih (fillStep acc p) k v htail
          (fun q hq => hall q (List.mem_cons_of_mem _ hq))

theorem dictGet_foldl_fillStep_of_not_mem (l : List (String × List String)) :
    ∀ acc k, (∀ p ∈ l, p.1 ≠ k) →
      dictGet (l.foldl fillStep acc) k = dictGet acc k := by
  induction l with
  | nil => intro acc k _; rfl
  | cons p rest ih =>
      intro acc k hall
      simp only [List.foldl_cons]
      rw [ih (fillStep acc p) k (fun q hq => hall q (List.mem_cons_of_mem _ hq))]
      exact dictGet_fillStep_ne acc p k (hall p (List.mem_cons_self _ _))

theorem bucketThin_congr (d d' : List (String × List String)) (k : String)
    (h : dictGet d k = dictGet d' k) : bucketThin d k = bucketThin d' k := by
  unfold bucketThin
  rw [h]

theorem fillStep_replaces (acc : List (String × List String))
    (p : String × List String) (h : bucketThin acc p.1 = true) :
    dictGet (fillStep acc p) p.1 = some p.2 := by
  unfold fillStep
  unfold bucketThin at h
  cases hg : dictGet acc p.1 with
  | none => exact dictGet_dictSet_self acc p.1 p.2
  | some v =>
      rw [hg] at h
      simp only [decide_eq_true_eq] at h
      simp only [h, if_true]
      exact dictGet_dictSet_self acc p.1 p.2

theorem foldl_fillStep_replaces (l : List (String × List String)) :
    ∀ acc k v, (k, v) ∈ l → (l.map Prod.fst).Nodup →
      bucketThin acc k = true →
      dictGet (l.foldl fillStep acc) k = some v := by
  induction l with
  | nil => intro acc k v h; simp at h
  | cons p rest ih =>
      intro acc k v hmem hnd hthin
      simp only [List.map_cons, List.nodup_cons] at hnd
      rcases List.mem_cons.mp hmem with heq | htail
      · subst heq
        have hnotrest : ∀ q ∈ rest, q.1 ≠ k := by
          intro q hq he
          apply hnd.1
          show k ∈ List.map Prod.fst rest
          rw [← he]
          exact List.mem_map_of_mem Prod.fst hq
        simp only [List.foldl_cons]
        rw [dictGet_foldl_fillStep_of_not_mem rest (fillStep acc (k, v)) k hnotrest]
        exact fillStep_replaces acc (k, v) hthin
      · have hpk : p.1 ≠ k := by
          intro he
          apply hnd.1
          rw [he]
          exact List.mem_map_of_mem Prod.fst htail
        exact ih (fillStep acc p) k v htail hnd.2
          ((bucketThin_congr _ _ k (dictGet_fillStep_ne acc p k hpk)) ▸ hthin)

/-! Helper lemmas about the case-insensitive merge. -/

theorem addTag_pos (hashtags : List String) (tag : String)
    (h : hashtags.any (fun x => pyLower x == pyLower tag) = true) :
    addTag hashtags tag = hashtags := by
  simp [addTag, h]

theorem addTag_neg (hashtags : List String) (tag : String)
    (h : ¬ hashtags.any (fun x => pyLower x == pyLower tag) = true) :
    addTag hashtags tag = hashtags ++ [tag] := by
  simp only [addTag, if_neg h]

theorem mergeTags_cons (existing : List String) (t : String) (rest : List String) :
    mergeTags existing (t :: rest) = mergeTags (addTag existing t) rest := rfl

theorem mergeTags_extends (tags : List String) :
    ∀ existing : List String, ∃ l, mergeTags existing tags = existing ++ l := by
  induction tags with
  | nil => intro existing; exact ⟨[], by simp [mergeTags]⟩
  | cons t rest ih =>
      intro existing
      rw [mergeTags_cons]
      by_cases h : existing.any (fun x => pyLower x == pyLower t) = true
      · rw [addTag_pos existing t h]
        exact ih existing
      · rw [addTag_neg existing t h]
        obtain ⟨l, hl⟩ := ih (existing ++ [t])
        exact ⟨t :: l, by rw [hl, List.append_assoc]; rfl⟩

theorem any_mergeTags_of_any (tags : List String) (existing : List String)
    (t : String) (h : existing.any (fun x => pyLower x == pyLower t) = true) :
    (mergeTags existing tags).any (fun x => pyLower x == pyLower t) = true := by
  obtain ⟨l, hl⟩ := mergeTags_extends tags existing
  rw [hl]
  simp [List.any_append, h]

theorem any_mergeTags_self (tags : List String) :
    ∀ existing t, t ∈ tags →
      (mergeTags existing tags).any (fun x => pyLower x == pyLower t) = true := by
  induction tags with
  | nil => intro _ t h; simp at h
  | cons a rest ih =>
      intro existing t hmem
      rw [mergeTags_cons]
      rcases List.mem_cons.mp hmem with heq | htail
      · subst heq
        apply any_mergeTags_of_any
        by_cases h : existing.any (fun x => pyLower x == pyLower t) = true
        · rw [addTag_pos existing t h]
          exact h
        · rw [addTag_neg existing t h]
          simp [List.any_append]
      · exact ih (addTag existing a) t htail

theorem mergeTags_of_all_present (tags : List String) (Z : List String)
    (h : ∀ t ∈ tags, Z.any (fun x => pyLower x == pyLower t) = true) :
    mergeTags Z tags = Z := by
  induction tags with
  | nil => rfl
  | cons a rest ih =>
      rw [mergeTags_cons, addTag_pos Z a (h a (List.mem_cons_self _ _))]
      exact ih (fun t ht => h t (List.mem_cons_of_mem _ ht))

/-- Merging the same tag list a second time into a bucket adds nothing: after
one merge every tag's lowercase form is present, so every dedup check skips. -/
theorem mergeTags_idem (xs ys : List String) :
    mergeTags (mergeTags xs ys) ys = mergeTags xs ys :=
  mergeTags_of_all_present ys (mergeTags xs ys)
    (fun t ht => any_mergeTags_self ys xs t ht)

/-! Helper lemmas about the API fetcher's tag normalization. -/

theorem pyStartsWith_hash_append (name : String) :
    pyStartsWith ("#" ++ name) "#" = true := by
  simp [pyStartsWith, String.data_append]

theorem ne_empty_of_startsWith_hash (t : String)
    (h : pyStartsWith t "#" = true) : t ≠ "" := by
  intro he
  subst he
  exact absurd h (by decide)

theorem normTag_spec (raw t : String) (h : normTag raw = some t) :
    pyStartsWith t "#" = true ∧ t ≠ "" := by
  unfold normTag at h
  by_cases h1 : raw.trim = ""
  · simp [h1] at h
  · by_cases h2 : pyStartsWith raw.trim "#" = true
    · simp [h1, h2] at h
      subst h
      exact ⟨h2, h1⟩
    · simp [h1, h2] at h
      subst h
      exact ⟨pyStartsWith_hash_append _,
        ne_empty_of_startsWith_hash _ (pyStartsWith_hash_append _)⟩

/-! The claim theorems. -/

/-- C6: the Primary Fetcher `fetch_via_api` returns absence (`none`) exactly
when the call fails — transport error or malformed body, non-success HTTP
status, a non-zero (or missing) embedded response code, or an empty result
list — and on success every returned entry is a non-empty string beginning
with `#` (entries whose raw name strips to empty are dropped). -/
theorem c6_theorem (r : ApiResult) :
    (fetch_via_api r = none ↔
      r = ApiResult.fail ∨
      ∃ status code items, r = ApiResult.ok status code items ∧
        (status ≠ 200 ∨ code ≠ some 0 ∨ items = [])) ∧
    (∀ hs, fetch_via_api r = some hs →
      ∀ t ∈ hs, pyStartsWith t "#" = true ∧ t ≠ "") := by
  cases r with
  | fail =>
      refine ⟨⟨fun _ => Or.inl rfl, fun _ => rfl⟩, ?_⟩
      intro hs h
      exact absurd h (by simp [fetch_via_api])
  | ok status code items =>
      constructor
      · constructor
        · intro hnone
          by_cases hst : status = 200
          · by_cases hcd : code = some 0
            · by_cases hit : items.isEmpty = true
              · exact Or.inr ⟨status, code, items, rfl,
                  Or.inr (Or.inr (List.isEmpty_iff.mp hit))⟩
              · subst hst; subst hcd
                simp [fetch_via_api, hit] at hnone
            · exact Or.inr ⟨status, code, items, rfl, Or.inr (Or.inl hcd)⟩
          · exact Or.inr ⟨status, code, items, rfl, Or.inl hst⟩
        · rintro (hfail | ⟨st, cd, its, heq, hbad⟩)
          · exact absurd hfail (by simp)
          · cases heq
            rcases hbad with h | h | h
            · simp [fetch_via_api, h]
            · by_cases hst : status = 200
              · simp [fetch_via_api, hst, h]
              · simp [fetch_via_api, hst]
            · subst h
              by_cases hst : status = 200
              · by_cases hcd : code = some 0
                · simp [fetch_via_api, hst, hcd]
                · simp [fetch_via_api, hcd]
              · simp [fetch_via_api, hst]
      · intro hs h t ht
        by_cases hst : status = 200
        · by_cases hcd : code = some 0
          · by_cases hit : items.isEmpty = true
            · subst hst; subst hcd
              simp [fetch_via_api, hit] at h
            · subst hst; subst hcd
              simp [fetch_via_api, hit] at h
              subst h
              obtain ⟨raw, hraw, hnorm⟩ := List.mem_filterMap.mp ht
              exact normTag_spec raw t hnorm
          · simp [fetch_via_api, hcd] at h
        · simp [fetch_via_api, hst] at h

/-- Witness for C6: the failure characterization and the success-shape
property instantiated at one concrete successful response. -/
theorem c6_witness :
    (fetch_via_api (ApiResult.ok 200 (some 0) ["alpha"]) = none ↔
      ApiResult.ok 200 (some 0) ["alpha"] = ApiResult.fail ∨
      ∃ status code items,
        ApiResult.ok 200 (some 0) ["alpha"] = ApiResult.ok status code items ∧
          (status ≠ 200 ∨ code ≠ some 0 ∨ items = [])) ∧
    (∀ hs, fetch_via_api (ApiResult.ok 200 (some 0) ["alpha"]) = some hs →
      ∀ t ∈ hs, pyStartsWith t "#" = true ∧ t ≠ "") :=
  c6_theorem (ApiResult.ok 200 (some 0) ["alpha"])

/-- C8: on a page whose only extractable content is the link
`<a href="/hashtag/foo/pc/en">` (whose own text is empty, so heuristic A finds
nothing and heuristics B then C run), the Secondary Fetcher returns exactly
`["#foo"]`. -/
theorem c8_theorem :
    fetch_via_html (HtmlResult.ok 200 ⟨[""], ["/hashtag/foo/pc/en"], []⟩) =
      some ["#foo"] := by
  decide

/-- C1 counterexample: when the Primary Fetcher returns `["#a", "#A", "#b"]`
for the one upstream category mapping to a previously absent bucket
(`All` → `general`), the code stores the list verbatim — the final bucket is
the three-element list still containing `"#A"`, not the deduplicated
`["#a", "#b"]` the claim states (the two lists differ, as the second conjunct
records). -/
theorem c1_counterexample :
    dictGet (scrape_all_hashtags
        (fun s => if s = "All" then some ["#a", "#A", "#b"] else none)
        none).1 "general" = some ["#a", "#A", "#b"] ∧
    ((["#a", "#A", "#b"] : List String) == ["#a", "#b"]) = false := by
  decide

/-- C1 (amended): a Primary Fetcher result stored into a previously absent
bucket is kept verbatim (no intra-list dedup), so two upstream categories
(`Games` and `Tech & Electronics`, both mapping to `tech`) delivering the same
list `["#a", "#A", "#b"]` leave the bucket exactly `["#a", "#A", "#b"]` —
and merging the same result into a bucket a second time is a no-op, so
repeated merging introduces no entries beyond the first merge. -/
theorem c1_theorem :
    dictGet (scrape_all_hashtags
        (fun s => if s = "Games" ∨ s = "Tech & Electronics"
                  then some ["#a", "#A", "#b"] else none)
        none).1 "tech" = some ["#a", "#A", "#b"] ∧
    ∀ xs ys : List String, mergeTags (mergeTags xs ys) ys = mergeTags xs ys :=
  ⟨by decide, mergeTags_idem⟩

/-- C2 counterexample: the fill loop iterates only over the Fallback Table's
own 8 categories, so a mapped category outside it keeps a thin bucket: with
the Primary Fetcher succeeding for `All` (3 tags) and for
`News & Entertainment` (the single tag `"#x"`), the final `entertainment`
bucket is still `["#x"]` — one entry, below the threshold of 3 — and the
Fallback Table has no `entertainment` list to replace it with. -/
theorem c2_counterexample :
    dictGet (scrape_all_hashtags
        (fun s => if s = "All" then some ["#g1", "#g2", "#g3"]
                  else if s = "News & Entertainment" then some ["#x"]
                  else none)
        none).1 "entertainment" = some ["#x"] ∧
    dictGet get_fallback_data "entertainment" = none ∧
    (["#x"] : List String).length < 3 := by
  decide

/-- C2 (amended): for every category present in the Fallback Table, if its
bucket is missing or has fewer than 3 entries after tiers 1 and 2, the final
dataset carries the fallback list for that category (wholesale replacement);
categories outside the Fallback Table's 8 keys are not filled. -/
theorem c2_theorem (api : String → Option (List String))
    (html : Option (List String)) (k : String) (ts : List String)
    (hfb : dictGet get_fallback_data k = some ts)
    (hthin : bucketThin (tiers12 api html).1 k = true) :
    dictGet (scrape_all_hashtags api html).1 k = some ts := by
  unfold scrape_all_hashtags
  by_cases hb : ((tiers12 api html).1.isEmpty
      || (tiers12 api html).1.all (fun p => p.2.length < 3)) = true
  · simp only [hb, if_true]
    exact hfb
  · simp only [Bool.not_eq_true] at hb
    simp only [hb, Bool.false_eq_true, if_false]
    exact foldl_fillStep_replaces get_fallback_data (tiers12 api html).1 k ts
      (mem_of_dictGet _ _ _ hfb) (by decide) hthin

/-- Witness for C2 (amended): with both fetchers failing, the `tech` bucket is
absent after tiers 1 and 2, and the final dataset carries the fallback `tech`
list. -/
theorem c2_witness :
    dictGet get_fallback_data "tech" =
      some ["#tech", "#technology", "#gaming", "#gamer", "#ai",
            "#techtok", "#gamedev", "#pc", "#gamingsetup", "#techreview",
            "#esports", "#twitch"] ∧
    bucketThin (tiers12 (fun _ => none) none).1 "tech" = true ∧
    dictGet (scrape_all_hashtags (fun _ => none) none).1 "tech" =
      some ["#tech", "#technology", "#gaming", "#gamer", "#ai",
            "#techtok", "#gamedev", "#pc", "#gamingsetup", "#techreview",
            "#esports", "#twitch"] :=
  ⟨by decide, by decide, c2_theorem _ _ _ _ (by decide) (by decide)⟩

/-- C3: when the Primary Fetcher returns absence for every upstream category
and the Secondary Fetcher returns absence, `scrape_all_hashtags` returns the
Fallback Table exactly (same categories, same ordered lists) with the source
label `"fallback"`. -/
theorem c3_theorem (api : String → Option (List String))
    (html : Option (List String)) (hapi : ∀ s, api s = none)
    (hhtml : html = none) :
    scrape_all_hashtags api html = (get_fallback_data, "fallback") := by
  have h : api = fun _ => none := funext hapi
  subst h
  subst hhtml
  decide

/-- Witness for C3 at the all-failing fetch outcomes. -/
theorem c3_witness :
    scrape_all_hashtags (fun _ => none) none = (get_fallback_data, "fallback") :=
  c3_theorem (fun _ => none) none (fun _ => rfl) rfl

set_option maxHeartbeats 1600000 in
/-- C4: when the Primary Fetcher succeeds exactly for `Tech & Electronics`
(the upstream category mapping to `tech`) with 6 case-insensitively unique
tags, all other fetches return absence, and the Secondary Fetcher returns
absence, the final dataset is the `tech` bucket with exactly those 6 tags
followed by every other Fallback Table category with its list verbatim, and
the source label is `"api"`. -/
theorem c4_theorem (api : String → Option (List String)) (ts : List String)
    (hlen : ts.length = 6)
    (huniq : ts.Pairwise (fun a b => pyLower a ≠ pyLower b))
    (hapi : ∀ s, api s = if s = "Tech & Electronics" then some ts else none) :
    scrape_all_hashtags api none =
      (("tech", ts) :: get_fallback_data.filter (fun p => p.1 ≠ "tech"),
       "api") := by
  have h : api = fun s => if s = "Tech & Electronics" then some ts else none :=
    funext hapi
  subst h
  clear huniq hapi
  rcases ts with _ | ⟨a, ts⟩
  · simp at hlen
  rcases ts with _ | ⟨b, ts⟩
  · simp at hlen
  rcases ts with _ | ⟨c, ts⟩
  · simp at hlen
  rcases ts with _ | ⟨d, ts⟩
  · simp at hlen
  rcases ts with _ | ⟨e, ts⟩
  · simp at hlen
  rcases ts with _ | ⟨f, ts⟩
  · simp at hlen
  rcases ts with _ | ⟨g, ts⟩
  · have h1 : step1 (fun s => if s = "Tech & Electronics"
          then some [a, b, c, d, e, f] else none)
        = ([("tech", [a, b, c, d, e, f])], 1) := by
      simp [step1, INDUSTRY_IDS, step1go, WEBSITE_KEY_MAP, dictGet,
        mergeIntoBucket]
    have h2 : tiers12 (fun s => if s = "Tech & Electronics"
          then some [a, b, c, d, e, f] else none) none
        = ([("tech", [a, b, c, d, e, f])], "api") := by
      simp [tiers12, h1, generalThin, dictGet, apiSource]
    simp [scrape_all_hashtags, h2, fillFromFallback, get_fallback_data,
      fillStep, dictGet, dictSet]
  · simp at hlen

/-- Witness for C4 at six concrete distinct tags. -/
theorem c4_witness :
    (["#t1", "#t2", "#t3", "#t4", "#t5", "#t6"] : List String).length = 6 ∧
    (["#t1", "#t2", "#t3", "#t4", "#t5", "#t6"] : List String).Pairwise
      (fun a b => pyLower a ≠ pyLower b) ∧
    scrape_all_hashtags
        (fun s => if s = "Tech & Electronics"
                  then some ["#t1", "#t2", "#t3", "#t4", "#t5", "#t6"]
                  else none) none =
      (("tech", ["#t1", "#t2", "#t3", "#t4", "#t5", "#t6"]) ::
        get_fallback_data.filter (fun p => p.1 ≠ "tech"), "api") :=
  ⟨by decide, by decide, c4_theorem _ _ (by decide) (by decide) (fun _ => rfl)⟩

/-! Remaining helper lemmas for the orchestrator-wide invariants. -/

theorem fallback_lists_long : ∀ p ∈ get_fallback_data, 3 ≤ p.2.length := by
  decide

theorem fallback_keys_covered :
    ∀ p ∈ get_fallback_data, bucketOK get_fallback_data p.1 = true := by
  decide

theorem exists_of_bucketOK (d : List (String × List String)) (k : String)
    (h : bucketOK d k = true) : ∃ v, dictGet d k = some v ∧ 3 ≤ v.length := by
  unfold bucketOK at h
  cases hg : dictGet d k with
  | none => rw [hg] at h; exact absurd h (by simp)
  | some v =>
      rw [hg] at h
      simp only [decide_eq_true_eq] at h
      exact ⟨v, rfl, h⟩

/-- C5: for every outcome of the two fetchers, the source label returned by
`scrape_all_hashtags` is one of `api`, `html`, `api+html`, `fallback`; the
initial `unknown` label never escapes, because an `unknown` label after tiers
1 and 2 forces an empty bucket map and hence the fallback branch. -/
theorem c5_theorem (api : String → Option (List String))
    (html : Option (List String)) :
    (scrape_all_hashtags api html).2 = "api" ∨
    (scrape_all_hashtags api html).2 = "html" ∨
    (scrape_all_hashtags api html).2 = "api+html" ∨
    (scrape_all_hashtags api html).2 = "fallback" := by
  unfold scrape_all_hashtags
  by_cases hb : ((tiers12 api html).1.isEmpty
      || (tiers12 api html).1.all (fun p => p.2.length < 3)) = true
  · simp [hb]
  · simp only [Bool.not_eq_true] at hb
    simp only [hb, Bool.false_eq_true, if_false]
    rcases tiers12_label api html with h | h | h | ⟨hu, hnil⟩
    · simp [h]
    · simp [h]
    · simp [h]
    · rw [hnil] at hb
      simp at hb

/-- C7: there is no fatal path — for every outcome of the two fetchers the
dataset returned by `scrape_all_hashtags` has at least one category holding at
least one tag (in fact the `general` bucket is always present and nonempty). -/
theorem c7_theorem (api : String → Option (List String))
    (html : Option (List String)) :
    ∃ k tags, dictGet (scrape_all_hashtags api html).1 k = some tags ∧
      0 < tags.length := by
  refine ⟨"general", ?_⟩
  unfold scrape_all_hashtags
  by_cases hb : ((tiers12 api html).1.isEmpty
      || (tiers12 api html).1.all (fun p => p.2.length < 3)) = true
  · simp only [hb, if_true]
    refine ⟨_, rfl, ?_⟩
    decide
  · simp only [Bool.not_eq_true] at hb
    simp only [hb, Bool.false_eq_true, if_false]
    obtain ⟨v, hv, hlen⟩ := exists_of_bucketOK
      (fillFromFallback (tiers12 api html).1) "general"
      (bucketOK_foldl_of_mem get_fallback_data (tiers12 api html).1 "general" _
        (mem_of_dictGet get_fallback_data "general" _ rfl) fallback_lists_long)
    exact ⟨v, hv, by omega⟩

/-- C10: for every outcome of the two fetchers, the dataset returned by
`scrape_all_hashtags` contains every one of the Fallback Table's 8 categories
(general, fitness, food, lifestyle, fashion, tech, travel, business), each
with at least 3 tags — both on the wholesale fallback branch and on the
per-category fill branch. -/
theorem c10_theorem (api : String → Option (List String))
    (html : Option (List String)) :
    get_fallback_data.all
      (fun p => bucketOK (scrape_all_hashtags api html).1 p.1) = true := by
  rw [List.all_eq_true]
  intro p hp
  unfold scrape_all_hashtags
  by_cases hb : ((tiers12 api html).1.isEmpty
      || (tiers12 api html).1.all (fun q => q.2.length < 3)) = true
  · simp only [hb, if_true]
    exact fallback_keys_covered p hp
  · simp only [Bool.not_eq_true] at hb
    simp only [hb, Bool.false_eq_true, if_false]
    exact bucketOK_foldl_of_mem get_fallback_data (tiers12 api html).1 p.1 p.2
      (by rw [Prod.mk.eta]; exact hp) fallback_lists_long

/-! The JSON writer claim. -/

theorem foldl_dictSet_append (l : List (String × List String)) :
    ∀ out : List (String × JVal),
      (l.map Prod.fst).Nodup → (∀ p ∈ l, p.1 ∉ out.map Prod.fst) →
      l.foldl (fun o p => dictSet o p.1 (JVal.arr p.2)) out =
        out ++ l.map (fun p => (p.1, JVal.arr p.2)) := by
  induction l with
  | nil => intro out _ _; simp
  | cons p rest ih =>
      intro out hnd hdisj
      simp only [List.map_cons, List.nodup_cons] at hnd
      simp only [List.foldl_cons]
      rw [dictSet_of_not_mem out p.1 (JVal.arr p.2)
        (hdisj p (List.mem_cons_self _ _))]
      have hdisj2 : ∀ q ∈ rest,
          q.1 ∉ (out ++ [(p.1, JVal.arr p.2)]).map Prod.fst := by
        intro q hq
        simp only [List.map_append, List.mem_append, List.map_cons,
          List.map_nil, List.mem_singleton, not_or]
        refine ⟨hdisj q (List.mem_cons_of_mem _ hq), ?_⟩
        intro he
        exact hnd.1 (he ▸ List.mem_map_of_mem Prod.fst hq)
      rw [ih (out ++ [(p.1, JVal.arr p.2)]) hnd.2 hdisj2]
      simp

/-- C9 counterexample: a mapping whose key is literally `_meta` makes the
writer overwrite the metadata object — the written document for the mapping
`{"_meta": ["#x"]}` is exactly one key `_meta` bound to the array `["#x"]`,
which is not an object, so no `_meta` object carrying `scraped_at`, source,
country and period survives. -/
theorem c9_counterexample :
    save_to_json [("_meta", ["#x"])] "api" "2026-01-01 00:00:00 UTC" =
      [("_meta", JVal.arr ["#x"])] ∧
    JVal.isObj (JVal.arr ["#x"]) = false :=
  ⟨rfl, rfl⟩

/-- C9 (amended): for every category-to-tag-list mapping with distinct keys
none of which is the reserved `_meta`, the document written by `save_to_json`
is exactly the `_meta` object (scraped_at timestamp, source label, country or
`"all"`, period in days) followed by the category→list mapping, key for key
and in order. -/
theorem c9_theorem (wd : List (String × List String)) (source now : String)
    (hnd : (wd.map Prod.fst).Nodup) (hnm : "_meta" ∉ wd.map Prod.fst) :
    save_to_json wd source now =
      ("_meta", metaObj source now) :: wd.map (fun p => (p.1, JVal.arr p.2)) := by
  unfold save_to_json
  have hdisj : ∀ p ∈ wd, p.1 ∉ ([("_meta", metaObj source now)].map Prod.fst) := by
    intro p hp
    simp only [List.map_cons, List.map_nil, List.mem_singleton]
    intro he
    exact hnm (he ▸ List.mem_map_of_mem Prod.fst hp)
  rw [foldl_dictSet_append wd [("_meta", metaObj source now)] hnd hdisj]
  rfl

/-- Witness for C9 (amended) at a one-category mapping. -/
theorem c9_witness :
    (([("general", ["#a"])] : List (String × List String)).map Prod.fst).Nodup ∧
    "_meta" ∉ ([("general", ["#a"])] : List (String × List String)).map Prod.fst ∧
    save_to_json [("general", ["#a"])] "api" "2026-01-01 00:00:00 UTC" =
      ("_meta", metaObj "api" "2026-01-01 00:00:00 UTC") ::
        [("general", JVal.arr ["#a"])] :=
  ⟨by decide, by decide, c9_theorem _ _ _ (by decide) (by decide)⟩

end TiktokScraper
